import Mathlib

/-!
Verification of the cache-backed nutritional dashboard repository: a shallow
embedding of its record search, filtering, pagination and cache publication
logic.  The definitions are translated from the frontend components
(src/frontend/src/components/Dashboard.jsx and DashboardPremium.jsx), the API
client (src/unnamed/part_012), and the backend cache layout documented in the
backend README (src/unnamed/part_005).  Parts of the backend whose code is
absent from the repository are modelled from the specification and marked as
such in their doc comments.
-/

/-- One record of the dataset as consumed by the dashboard components: a name,
two categorical grouping attributes (diet and cuisine) and three numeric
macronutrient attributes.  The numeric values never enter the search, filter or
pagination logic, so they are embedded as integers. -/
structure Recipe where
  Recipe_name : String
  Diet_type : String
  Cuisine_type : String
  protein_g : Int
  carbs_g : Int
  fat_g : Int
deriving DecidableEq

/-- Helper for the JavaScript String.includes embedding: does the second list
of characters occur at the head of the first. -/
def startsWithChars : List Char → List Char → Bool
  | _, [] => true
  | [], _ :: _ => false
  | c :: cs, d :: ds => c == d && startsWithChars cs ds

/-- Helper for the JavaScript String.includes embedding: does sub occur as a
contiguous run anywhere in the second list. -/
def occursInChars (sub : List Char) : List Char → Bool
  | [] => startsWithChars [] sub
  | c :: t => startsWithChars (c :: t) sub || occursInChars sub t

/-- Embedding of the JavaScript expression hay.includes(sub) on strings. -/
def jsIncludes (hay sub : String) : Bool :=
  occursInChars sub.data hay.data

/-- Lower-casing of one character, restricted to ASCII letters; the dashboard
strings are ASCII, so this is the behaviour of the JavaScript toLowerCase the
components call. -/
def asciiToLower (c : Char) : Char :=
  if 'A' <= c && c <= 'Z' then Char.ofNat (c.toNat + 32) else c

/-- Embedding of the JavaScript expression s.toLowerCase() on the ASCII
strings the dashboard handles. -/
def jsToLower (s : String) : String :=
  String.mk (s.data.map asciiToLower)

/-- Embedding of matchesSearch from Dashboard.jsx lines 55 to 59: the keyword
test accepts a recipe when the query is empty or is a case-insensitive
substring of the recipe name, the diet type, or the cuisine type. -/
def matchesSearch (searchQuery : String) (recipe : Recipe) : Bool :=
  searchQuery == "" ||
  jsIncludes (jsToLower recipe.Recipe_name) (jsToLower searchQuery) ||
  jsIncludes (jsToLower recipe.Diet_type) (jsToLower searchQuery) ||
  jsIncludes (jsToLower recipe.Cuisine_type) (jsToLower searchQuery)

/-- Embedding of matchesDiet from Dashboard.jsx line 61: the value all is a
sentinel that disables the diet filter, otherwise the recipe diet type must
equal the selected value. -/
def matchesDiet (selectedDiet : String) (recipe : Recipe) : Bool :=
  selectedDiet == "all" || recipe.Diet_type == selectedDiet

/-- Embedding of filteredRecipes from Dashboard.jsx lines 54 to 64: keep the
recipes that pass both the keyword test and the diet filter. -/
def filteredRecipes (recipes : List Recipe) (searchQuery selectedDiet : String) :
    List Recipe :=
  recipes.filter (fun recipe =>
    matchesSearch searchQuery recipe && matchesDiet selectedDiet recipe)

/-- Embedding of JavaScript Array.slice(start, stop) restricted to the
arguments the dashboard uses (0 ≤ start ≤ stop). -/
def jsSlice {α : Type} (l : List α) (start stop : Nat) : List α :=
  (l.drop start).take (stop - start)

/-- The constant itemsPerPage from Dashboard.jsx line 18. -/
def itemsPerPage : Nat := 10

/-- Embedding of the totalPages computation from Dashboard.jsx line 67,
Math.ceil(length / size), written with natural-number ceiling division. -/
def totalPages (totalCount pageSize : Nat) : Nat :=
  (totalCount + pageSize - 1) / pageSize

/-- Embedding of paginatedRecipes from Dashboard.jsx lines 68 to 70:
startIndex = (page - 1) * size, endIndex = startIndex + size, then slice.
The page size is a parameter; the component instantiates it with the constant
itemsPerPage. -/
def paginatedRecipes (filtered : List Recipe) (currentPage pageSize : Nat) :
    List Recipe :=
  jsSlice filtered ((currentPage - 1) * pageSize)
    ((currentPage - 1) * pageSize + pageSize)

/-- The page of records and total count produced by one record search. -/
structure SearchResult where
  recipes : List Recipe
  total_count : Nat
deriving DecidableEq

/-- The read path of the dashboard record search, composed from Dashboard.jsx
lines 53 to 70: filter the record set held in component state, then slice the
requested page.  The second component of the result is the record set after
the read; Array.filter and Array.slice allocate fresh arrays and never mutate
their receiver, which the embedding records by returning the store unchanged.
The function is total: no input is an error. -/
def searchRecords (store : List Recipe) (searchQuery selectedDiet : String)
    (page pageSize : Nat) : SearchResult × List Recipe :=
  let filtered := filteredRecipes store searchQuery selectedDiet
  (⟨paginatedRecipes filtered page pageSize, filtered.length⟩, store)

/-- The per-diet-value filtered list snapshot: the Dashboard read path with an
empty keyword and the given diet value (Dashboard.jsx lines 54 to 64); the
backend README (src/unnamed/part_005, Step 4) precomputes the same lists under
the per-diet cache keys. -/
def dietSnapshot (v : String) (l : List Recipe) : List Recipe :=
  filteredRecipes l "" v

/-- The all-records snapshot: the Dashboard read path with an empty keyword and
the sentinel diet value all; the backend README stores the same list under the
recipes:all cache key. -/
def allRecipesSnapshot (l : List Recipe) : List Recipe :=
  filteredRecipes l "" "all"

/-- Modelled from the spec: the per-cuisine-value filtered list snapshot
(cache keys recipes:cuisine per value in src/unnamed/part_005, Step 4).  The
backend function that builds these lists is absent from src/; the spec defines
a per-dimension-value snapshot as the records whose value on that grouping
dimension equals the given value. -/
def cuisineSnapshot (v : String) (l : List Recipe) : List Recipe :=
  l.filter (fun r => r.Cuisine_type == v)

/-- The case-insensitive substring relation used by the specification: the
lower-cased needle occurs contiguously inside the lower-cased haystack. -/
def caseInsensitiveSubstr (needle hay : String) : Prop :=
  ∃ pre post : List Char,
    (jsToLower hay).data = pre ++ (jsToLower needle).data ++ post

/-- The pagination state of the dashboard components: the current page and the
page count of the list being paged (Dashboard.jsx lines 17 and 67). -/
structure PagerState where
  currentPage : Nat
  totalPages : Nat
deriving DecidableEq

/-- Embedding of goToPrevious from Dashboard.jsx lines 77 to 81: decrement the
current page only when it is above one. -/
def goToPrevious (st : PagerState) : PagerState :=
  if st.currentPage > 1 then ⟨st.currentPage - 1, st.totalPages⟩ else st

/-- Embedding of goToNext from Dashboard.jsx lines 83 to 87: increment the
current page only when it is below the page count. -/
def goToNext (st : PagerState) : PagerState :=
  if st.currentPage < st.totalPages then ⟨st.currentPage + 1, st.totalPages⟩
  else st

/-- Embedding of goToPage from Dashboard.jsx lines 73 to 75: an unguarded
setter; the page-number buttons that invoke it are rendered only for the page
numbers one through totalPages (Dashboard.jsx lines 307 to 345). -/
def goToPage (st : PagerState) (page : Nat) : PagerState :=
  ⟨page, st.totalPages⟩

/-- Embedding of the effect hook at Dashboard.jsx lines 90 to 92: any change
of the search query or the diet filter resets the current page to one; the
page count is recomputed from the newly filtered list. -/
def resetOnFilterChange (newTotalPages : Nat) : PagerState :=
  ⟨1, newTotalPages⟩

/-- The user interactions that change the pagination state. -/
inductive PageEvent where
  | previous : PageEvent
  | next : PageEvent
  | goto : Nat → PageEvent
  | filterChange : Nat → PageEvent
deriving DecidableEq

/-- Which events the rendered dashboard can actually emit in a given state:
the page-number buttons exist only for pages one through totalPages; the other
controls are always available (their guards live in the handlers). -/
def eventAllowed (st : PagerState) : PageEvent → Prop
  | PageEvent.goto p => 1 ≤ p ∧ p ≤ st.totalPages
  | _ => True

/-- One step of the dashboard pagination state machine. -/
def stepPager (st : PagerState) : PageEvent → PagerState
  | PageEvent.previous => goToPrevious st
  | PageEvent.next => goToNext st
  | PageEvent.goto p => goToPage st p
  | PageEvent.filterChange n => resetOnFilterChange n

/-- The pagination invariant: the current page stays between one and the page
count, reading an empty list as having one displayable page. -/
def pagerInvariant (st : PagerState) : Prop :=
  1 ≤ st.currentPage ∧ st.currentPage ≤ max st.totalPages 1

instance (st : PagerState) : Decidable (pagerInvariant st) := by
  unfold pagerInvariant
  infer_instance

instance (st : PagerState) (e : PageEvent) : Decidable (eventAllowed st e) := by
  cases e <;> simp only [eventAllowed] <;> infer_instance

/-- The query parameters accepted by fetchRecipes in src/unnamed/part_012:
each field is absent (undefined in JavaScript) or holds a value.  Page numbers
are embedded as naturals, with zero the only falsy number the client can
send. -/
structure FetchParams where
  diet_type : Option String
  cuisine_type : Option String
  keyword : Option String
  page : Option Nat
  page_size : Option Nat
deriving DecidableEq

/-- Drops the leading whitespace characters of a character list. -/
def dropLeadingWS : List Char → List Char
  | [] => []
  | c :: t => if c.isWhitespace then dropLeadingWS t else c :: t

/-- Embedding of JavaScript String.trim as used by fetchRecipes: remove
leading and trailing whitespace.  Restricted to the ASCII whitespace
characters, which is all the dashboard strings contain. -/
def jsTrim (s : String) : String :=
  String.mk (List.reverse (dropLeadingWS (List.reverse (dropLeadingWS s.data))))

/-- Embedding of the diet_type guard of fetchRecipes (src/unnamed/part_012
lines 50 to 52): appended only when the value is truthy (present and
non-empty) and differs from the sentinel all. -/
def dietParam : Option String → List (String × String)
  | none => []
  | some s => if s != "" && s != "all" then [("diet_type", s)] else []

/-- Embedding of the cuisine_type guard of fetchRecipes (lines 54 to 56). -/
def cuisineParam : Option String → List (String × String)
  | none => []
  | some s => if s != "" && s != "all" then [("cuisine_type", s)] else []

/-- Embedding of the keyword guard of fetchRecipes (lines 58 to 60): appended
only when the value is truthy and non-blank after trimming, and the appended
value is the trimmed keyword. -/
def keywordParam : Option String → List (String × String)
  | none => []
  | some s => if s != "" && jsTrim s != "" then [("keyword", jsTrim s)] else []

/-- Embedding of the page guard of fetchRecipes (lines 62 to 64): appended
only when the number is truthy. -/
def pageParam : Option Nat → List (String × String)
  | none => []
  | some n => if n != 0 then [("page", toString n)] else []

/-- Embedding of the page_size guard of fetchRecipes (lines 66 to 68). -/
def pageSizeParam : Option Nat → List (String × String)
  | none => []
  | some n => if n != 0 then [("page_size", toString n)] else []

/-- Embedding of the query string built by fetchRecipes (src/unnamed/part_012
lines 45 to 70), as the ordered list of appended key-value pairs. -/
def buildQueryParams (p : FetchParams) : List (String × String) :=
  dietParam p.diet_type ++ cuisineParam p.cuisine_type ++
  keywordParam p.keyword ++ pageParam p.page ++ pageSizeParam p.page_size

/-- Modelled from the spec: the pagination envelope of the get-recipes
response.  The backend HTTP function that builds it is absent from src/;
src/unnamed/part_005 documents only its shape (page, page_size, total_count,
total_pages, has_next, has_prev).  Per the spec, total_pages is the ceiling of
total over page size, has_next holds exactly below the last page, and
has_prev exactly above the first. -/
structure PaginationInfo where
  page : Nat
  page_size : Nat
  total_count : Nat
  total_pages : Nat
  has_next : Bool
  has_prev : Bool
deriving DecidableEq

/-- Modelled from the spec: building the get-recipes pagination envelope for a
filtered list of the given total size. -/
def buildPagination (totalCount page pageSize : Nat) : PaginationInfo :=
  ⟨page, pageSize, totalCount, totalPages totalCount pageSize,
   decide (page < totalPages totalCount pageSize), decide (1 < page)⟩

/-- Modelled from the spec: the sane maximum the backend clamps page_size to;
the spec fixes no number, only that a fixed maximum exists. -/
def maxPageSize : Nat := 100

/-- Modelled from the spec: the default page size of the get-recipes handler
(src/unnamed/part_012 documents the default as 10). -/
def defaultPageSize : Nat := 10

/-- Modelled from the spec: the effective page size used by the get-recipes
handler before slicing — the default when the caller sent none, clamped to the
fixed maximum.  The backend function code is absent from src/; the client
(src/unnamed/part_012 fetchRecipes) forwards page_size unmodified. -/
def effectivePageSize (requested : Nat) : Nat :=
  min (if requested = 0 then defaultPageSize else requested) maxPageSize

/-- Modelled from the spec: the page of records returned by the get-recipes
handler, slicing with the clamped page size. -/
def getRecipesPage (l : List Recipe) (page requested : Nat) : List Recipe :=
  paginatedRecipes l page (effectivePageSize requested)

/-- Embedding of the cache publication sequence of one ingestion run, from the
backend README (src/unnamed/part_005, Steps 1 to 5 and the Redis Keys Summary,
titled Actual Values From Code; the blob-trigger function itself is absent
from src/).  Each run writes the same fixed keys in step order; the keys carry
no run identifier and no current-run pointer key exists.  The per-diet and
per-cuisine snapshot keys are families indexed by a value; one representative
member of each family is listed. -/
def runWriteKeys : List String :=
  ["cleaned_data", "charts:bar_chart", "charts:heatmap", "charts:scatter_plot",
   "insights:summary", "recipes:all", "recipes:diet:keto",
   "recipes:cuisine:american", "metadata"]

/-- The cache state: each key holds the identifier of the run whose artifact
it currently stores, or nothing.  Artifact payloads are abstracted to the
identifier of the run that produced them, which is all the atomicity claims
inspect. -/
def applyRunWrites (runId : String) (keys : List String)
    (c : String → Option String) : String → Option String :=
  keys.foldl (fun acc k => fun key => if key == k then some runId else acc key) c

theorem startsWithChars_iff (sub hay : List Char) :
    startsWithChars hay sub = true ↔ ∃ rest, hay = sub ++ rest := by
  induction sub generalizing hay with
  | nil =>
    cases hay with
    | nil => simp [startsWithChars]
    | cons c cs => simp [startsWithChars]
  | cons d ds ih =>
    cases hay with
    | nil => simp [startsWithChars]
    | cons c cs =>
      simp only [startsWithChars, Bool.and_eq_true, beq_iff_eq, ih,
        List.cons_append, List.cons.injEq]
      constructor
      · rintro ⟨rfl, rest, rfl⟩
        exact ⟨rest, rfl, rfl⟩
      · rintro ⟨rest, rfl, rfl⟩
        exact ⟨rfl, rest, rfl⟩

theorem occursInChars_iff (sub hay : List Char) :
    occursInChars sub hay = true ↔ ∃ pre post, hay = pre ++ sub ++ post := by
  induction hay with
  | nil =>
    simp only [occursInChars, startsWithChars_iff]
    constructor
    · rintro ⟨rest, h⟩
      exact ⟨[], rest, by simpa using h⟩
    · rintro ⟨pre, post, h⟩
      have h2 := h.symm
      rw [List.append_assoc] at h2
      rcases List.append_eq_nil.mp h2 with ⟨h3, h4⟩
      rcases List.append_eq_nil.mp h4 with ⟨h5, h6⟩
      exact ⟨[], by simp [h5]⟩
  | cons c t ih =>
    simp only [occursInChars, Bool.or_eq_true, startsWithChars_iff, ih]
    constructor
    · rintro (⟨rest, h⟩ | ⟨pre, post, h⟩)
      · exact ⟨[], rest, by simpa using h⟩
      · exact ⟨c :: pre, post, by simp [h]⟩
    · rintro ⟨pre, post, h⟩
      cases pre with
      | nil =>
        left
        exact ⟨post, by simpa using h⟩
      | cons p ps =>
        right
        rw [List.cons_append, List.cons_append, List.cons.injEq] at h
        exact ⟨ps, post, h.2⟩

theorem jsIncludes_iff_caseInsensitiveSubstr (needle hay : String) :
    jsIncludes (jsToLower hay) (jsToLower needle) = true ↔
      caseInsensitiveSubstr needle hay := by
  unfold jsIncludes caseInsensitiveSubstr
  exact occursInChars_iff _ _

theorem applyRunWrites_eq (runId : String) (keys : List String)
    (c : String → Option String) (key : String) :
    applyRunWrites runId keys c key
      = if key ∈ keys then some runId else c key := by
  induction keys generalizing c with
  | nil => simp [applyRunWrites]
  | cons k ks ih =>
    show applyRunWrites runId ks
      (fun key => if key == k then some runId else c key) key = _
    rw [ih]
    by_cases hmem : key ∈ ks
    · simp [hmem, List.mem_cons]
    · by_cases hk : key = k
      · simp [hmem, hk, List.mem_cons]
      · simp [hmem, hk, List.mem_cons]

theorem paginatedRecipes_eq (l : List Recipe) (p s : Nat) :
    paginatedRecipes l p s = (l.drop ((p - 1) * s)).take s := by
  unfold paginatedRecipes jsSlice
  rw [Nat.add_sub_cancel_left]

theorem totalPages_succ (s n : Nat) (hs : 0 < s) (hn : 0 < n) :
    totalPages n s = totalPages (n - s) s + 1 := by
  unfold totalPages
  have h1 : n + s - 1 = (n - 1) + s := by omega
  rw [h1, Nat.add_div_right _ hs]
  congr 1
  rcases le_or_lt s n with h | h
  · have h2 : n - s + s - 1 = n - 1 := by omega
    rw [h2]
  · have h2 : n - s = 0 := by omega
    rw [h2]
    have h3 : 0 + s - 1 < s := by omega
    have h4 : n - 1 < s := by omega
    rw [Nat.div_eq_of_lt h3, Nat.div_eq_of_lt h4]

theorem lt_totalPages_mul (s n p : Nat) (hs : 0 < s)
    (h : p < totalPages n s) : p * s < n := by
  unfold totalPages at h
  have h2 : p + 1 ≤ (n + s - 1) / s := h
  have h3 : (p + 1) * s ≤ n + s - 1 := (Nat.le_div_iff_mul_le hs).mp h2
  rw [Nat.succ_mul] at h3
  omega

theorem length_le_totalPages_mul (n s : Nat) (hs : 0 < s) :
    n ≤ totalPages n s * s := by
  unfold totalPages
  have h1 := Nat.mod_add_div (n + s - 1) s
  have h2 : (n + s - 1) % s < s := Nat.mod_lt _ hs
  have h3 : (n + s - 1) / s * s = s * ((n + s - 1) / s) := Nat.mul_comm _ _
  generalize hq : (n + s - 1) / s = q at h1 h3 ⊢
  generalize hA : (n + s - 1) % s = A at h1 h2
  omega

theorem join_paginate {α : Type} (s : Nat) (hs : 0 < s) :
    ∀ (n : Nat) (l : List α), l.length = n →
      ((List.range (totalPages n s)).map
        (fun i => (l.drop (i * s)).take s)).flatten = l := by
  intro n
  induction n using Nat.strong_induction_on with
  | _ n ih =>
    intro l hn
    cases l with
    | nil =>
      have h0 : n = 0 := by simpa using hn.symm
      subst h0
      have htp : totalPages 0 s = 0 := by
        unfold totalPages
        exact Nat.div_eq_of_lt (by omega)
      simp [htp]
    | cons a t =>
      have hpos : 0 < n := by rw [← hn]; simp
      have htp : totalPages n s = totalPages (n - s) s + 1 :=
        totalPages_succ s n hs hpos
      rw [htp, List.range_succ_eq_map, List.map_cons, List.flatten_cons,
        List.map_map]
      have hfun : ((fun i => ((a :: t).drop (i * s)).take s) ∘ Nat.succ)
          = fun i => (((a :: t).drop s).drop (i * s)).take s := by
        funext i
        simp only [Function.comp]
        rw [List.drop_drop, Nat.succ_mul, Nat.add_comm (i * s) s]
      rw [hfun]
      have hlen2 : ((a :: t).drop s).length = n - s := by
        rw [List.length_drop, hn]
      have hlt : n - s < n := Nat.sub_lt hpos hs
      rw [ih (n - s) hlt ((a :: t).drop s) hlen2]
      simp


/-- Claim C1 counterexample: with a record set holding the single record named
Salad of diet keto, the keyword keto selects the record although keto is not a
case-insensitive substring of the name field — the keyword test of
Dashboard.jsx also matches the diet and cuisine fields. -/
theorem C1_counterexample :
    filteredRecipes [⟨"Salad", "keto", "american", 1, 2, 3⟩] "keto" "all"
        = [⟨"Salad", "keto", "american", 1, 2, 3⟩]
    ∧ jsIncludes (jsToLower "Salad") (jsToLower "keto") = false
    ∧ ¬ caseInsensitiveSubstr "keto" "Salad" := by
  refine ⟨by decide, by decide, ?_⟩
  rw [← jsIncludes_iff_caseInsensitiveSubstr]
  decide

/-- Claim C1 (amended): a record passes the Dashboard record search exactly
when the keyword is empty or a case-insensitive substring of its name, diet
type or cuisine type, and the diet filter passes; record fields other than
these three strings never influence the keyword match. -/
theorem C1_keyword_filter (l : List Recipe) (q d : String) (r : Recipe) :
    (r ∈ filteredRecipes l q d ↔
      r ∈ l ∧ (q = "" ∨ caseInsensitiveSubstr q r.Recipe_name
          ∨ caseInsensitiveSubstr q r.Diet_type
          ∨ caseInsensitiveSubstr q r.Cuisine_type)
        ∧ (d = "all" ∨ r.Diet_type = d))
    ∧ (∀ r' : Recipe, r.Recipe_name = r'.Recipe_name →
        r.Diet_type = r'.Diet_type → r.Cuisine_type = r'.Cuisine_type →
        matchesSearch q r = matchesSearch q r') := by
  constructor
  · rw [filteredRecipes, List.mem_filter]
    simp only [Bool.and_eq_true, matchesSearch, matchesDiet, Bool.or_eq_true,
      beq_iff_eq, jsIncludes_iff_caseInsensitiveSubstr]
    tauto
  · intro r' h1 h2 h3
    simp only [matchesSearch, h1, h2, h3]

/-- Claim C1 amended witness at a concrete input: the numeric fields do not
influence the keyword match. -/
theorem C1_keyword_filter_witness :
    matchesSearch "keto" ⟨"Salad", "keto", "american", 1, 2, 3⟩
      = matchesSearch "keto" ⟨"Salad", "keto", "american", 9, 9, 9⟩ :=
  (C1_keyword_filter [] "keto" "all" ⟨"Salad", "keto", "american", 1, 2, 3⟩).2
    ⟨"Salad", "keto", "american", 9, 9, 9⟩ rfl rfl rfl

/-- Claim C2: for any filtered list and positive page size, each page is the
slice from (page - 1) * size up to but excluding page * size, every page
before the last holds exactly pageSize records, and concatenating all pages in
order reproduces the filtered list with nothing duplicated or dropped. -/
theorem C2_pagination (l : List Recipe) (s : Nat) (hs : 0 < s) :
    (∀ p, 1 ≤ p → p < totalPages l.length s →
      (paginatedRecipes l p s).length = s)
    ∧ ((List.range (totalPages l.length s)).map
        (fun i => paginatedRecipes l (i + 1) s)).flatten = l
    ∧ (∀ p, paginatedRecipes l p s = (l.drop ((p - 1) * s)).take s) := by
  refine ⟨?_, ?_, fun p => paginatedRecipes_eq l p s⟩
  · intro p hp1 hp2
    have hmul : p * s < l.length := lt_totalPages_mul s l.length p hs hp2
    rw [paginatedRecipes_eq, List.length_take, List.length_drop]
    have hps : (p - 1) * s + s = p * s := by
      have hp : p - 1 + 1 = p := Nat.succ_pred_eq_of_pos hp1
      calc (p - 1) * s + s = (p - 1 + 1) * s := (Nat.succ_mul (p - 1) s).symm
        _ = p * s := by rw [hp]
    omega
  · have hfun : (fun i => paginatedRecipes l (i + 1) s)
        = fun i => (l.drop (i * s)).take s := by
      funext i
      rw [paginatedRecipes_eq]
      simp
    rw [hfun]
    exact join_paginate s hs l.length l rfl

/-- Claim C2 witness: three concrete records paged with size two. -/
theorem C2_pagination_witness :
    (0 : Nat) < 2
    ∧ ((List.range (totalPages
        ([⟨"a", "keto", "x", 1, 1, 1⟩, ⟨"b", "vegan", "y", 2, 2, 2⟩,
          ⟨"c", "keto", "z", 3, 3, 3⟩] : List Recipe).length 2)).map
        (fun i => paginatedRecipes [⟨"a", "keto", "x", 1, 1, 1⟩,
          ⟨"b", "vegan", "y", 2, 2, 2⟩,
          ⟨"c", "keto", "z", 3, 3, 3⟩] (i + 1) 2)).flatten
      = [⟨"a", "keto", "x", 1, 1, 1⟩, ⟨"b", "vegan", "y", 2, 2, 2⟩,
         ⟨"c", "keto", "z", 3, 3, 3⟩] :=
  ⟨by decide, (C2_pagination _ 2 (by decide)).2.1⟩

/-- Claim C3: requesting the page one past the last page returns an empty
record list, with has_next false and has_prev true in the pagination
envelope; the slice and the envelope are ordinary successful results, not
errors. -/
theorem C3_page_beyond_last (l : List Recipe) (s : Nat)
    (h : 0 < totalPages l.length s) :
    paginatedRecipes l (totalPages l.length s + 1) s = []
    ∧ (buildPagination l.length (totalPages l.length s + 1) s).has_next = false
    ∧ (buildPagination l.length (totalPages l.length s + 1) s).has_prev
        = true := by
  have hs : 0 < s := by
    by_contra hs0
    have hz : s = 0 := by omega
    subst hz
    simp [totalPages] at h
  refine ⟨?_, ?_, ?_⟩
  · rw [paginatedRecipes_eq]
    have hle : l.length ≤ (totalPages l.length s + 1 - 1) * s := by
      have hb := length_le_totalPages_mul l.length s hs
      simpa using hb
    rw [List.drop_eq_nil_of_le hle]
    simp
  · simp only [buildPagination, decide_eq_false_iff_not]
    omega
  · simp only [buildPagination, decide_eq_true_eq]
    omega

/-- Claim C3 witness: one record paged with size one has one page; page two is
empty with has_next false and has_prev true. -/
theorem C3_page_beyond_last_witness :
    0 < totalPages ([(⟨"a", "keto", "x", 1, 1, 1⟩ : Recipe)].length) 1
    ∧ (paginatedRecipes [(⟨"a", "keto", "x", 1, 1, 1⟩ : Recipe)]
        (totalPages ([(⟨"a", "keto", "x", 1, 1, 1⟩ : Recipe)].length) 1 + 1) 1
        = []
      ∧ (buildPagination ([(⟨"a", "keto", "x", 1, 1, 1⟩ : Recipe)].length)
          (totalPages ([(⟨"a", "keto", "x", 1, 1, 1⟩ : Recipe)].length) 1 + 1)
          1).has_next = false
      ∧ (buildPagination ([(⟨"a", "keto", "x", 1, 1, 1⟩ : Recipe)].length)
          (totalPages ([(⟨"a", "keto", "x", 1, 1, 1⟩ : Recipe)].length) 1 + 1)
          1).has_prev = true) :=
  ⟨by decide, C3_page_beyond_last [⟨"a", "keto", "x", 1, 1, 1⟩] 1 (by decide)⟩

/-- Claim C4: the record search is deterministic and read-only — repeating the
identical search against the record set left behind by a first invocation
returns the identical page content and total count, and the record set after a
search equals the record set before it. -/
theorem C4_search_deterministic (store : List Recipe) (q d : String)
    (page pageSize : Nat) :
    (searchRecords ((searchRecords store q d page pageSize).2) q d page
        pageSize).1
      = (searchRecords store q d page pageSize).1
    ∧ (searchRecords store q d page pageSize).2 = store :=
  ⟨rfl, rfl⟩

/-- Claim C5 counterexample: when the value all occurs as a Diet_type in the
record set, the record named A lies in the snapshot of its own diet value keto
and also in the snapshot of the diet value all, because the filter treats all
as the no-filter sentinel instead of an equality test — a record can therefore
appear in two per-dimension-value snapshots, and selection at the value all is
not equivalent to equality of the Diet_type field. -/
theorem C5_counterexample :
    (⟨"A", "keto", "italian", 1, 1, 1⟩ : Recipe) ∈
        dietSnapshot "keto" [⟨"A", "keto", "italian", 1, 1, 1⟩,
          ⟨"B", "all", "french", 2, 2, 2⟩]
    ∧ (⟨"A", "keto", "italian", 1, 1, 1⟩ : Recipe) ∈
        dietSnapshot "all" [⟨"A", "keto", "italian", 1, 1, 1⟩,
          ⟨"B", "all", "french", 2, 2, 2⟩]
    ∧ (⟨"A", "keto", "italian", 1, 1, 1⟩ : Recipe).Diet_type ≠ "all" := by
  decide

/-- Claim C5 (amended): for every diet value other than the reserved sentinel
all, the diet snapshot selects a record exactly when its Diet_type equals the
value; snapshots of two distinct non-sentinel values are disjoint; every
occurrence of a record lands in the snapshot of its own diet value; the all
snapshot is exactly the full record list; and the modelled per-cuisine
snapshots behave the same way on the cuisine dimension. -/
theorem C5_snapshot_partition (l : List Recipe) (r : Recipe) (v : String)
    (hv : v ≠ "all") :
    (r ∈ dietSnapshot v l ↔ r ∈ l ∧ r.Diet_type = v)
    ∧ (∀ v1 v2, v1 ≠ "all" → v2 ≠ "all" → v1 ≠ v2 →
        r ∈ dietSnapshot v1 l → r ∉ dietSnapshot v2 l)
    ∧ List.count r (dietSnapshot r.Diet_type l) = List.count r l
    ∧ allRecipesSnapshot l = l
    ∧ (r ∈ cuisineSnapshot v l ↔ r ∈ l ∧ r.Cuisine_type = v)
    ∧ List.count r (cuisineSnapshot r.Cuisine_type l) = List.count r l := by
  have hmem : ∀ (w : String) (x : Recipe), w ≠ "all" →
      (x ∈ dietSnapshot w l ↔ x ∈ l ∧ x.Diet_type = w) := by
    intro w x hw
    unfold dietSnapshot filteredRecipes
    rw [List.mem_filter]
    simp [matchesSearch, matchesDiet, hw]
  refine ⟨hmem v r hv, ?_, ?_, ?_, ?_, ?_⟩
  · intro v1 v2 h1 h2 hne hm1 hm2
    have e1 := ((hmem v1 r h1).mp hm1).2
    have e2 := ((hmem v2 r h2).mp hm2).2
    exact hne (e1 ▸ e2 ▸ rfl)
  · unfold dietSnapshot filteredRecipes
    apply List.count_filter
    simp [matchesSearch, matchesDiet]
  · unfold allRecipesSnapshot filteredRecipes
    apply List.filter_eq_self.mpr
    intro a _
    simp [matchesSearch, matchesDiet]
  · unfold cuisineSnapshot
    rw [List.mem_filter]
    simp
  · unfold cuisineSnapshot
    apply List.count_filter
    simp

/-- Claim C5 amended witness at a concrete input. -/
theorem C5_snapshot_partition_witness :
    ("vegan" : String) ≠ "all"
    ∧ ((⟨"A", "keto", "italian", 1, 1, 1⟩ : Recipe) ∈
        dietSnapshot "vegan" [⟨"A", "keto", "italian", 1, 1, 1⟩]
      ↔ (⟨"A", "keto", "italian", 1, 1, 1⟩ : Recipe) ∈
          ([⟨"A", "keto", "italian", 1, 1, 1⟩] : List Recipe)
        ∧ (⟨"A", "keto", "italian", 1, 1, 1⟩ : Recipe).Diet_type = "vegan") :=
  ⟨by decide,
   (C5_snapshot_partition [⟨"A", "keto", "italian", 1, 1, 1⟩]
     ⟨"A", "keto", "italian", 1, 1, 1⟩ "vegan" (by decide)).1⟩

/-- Claim C6 counterexample: with run one fully published and run two having
written its first five keys (through insights:summary) but not yet metadata, a
reader observes the insights artifact of run two next to the metadata artifact
of run one — artifacts of two different runs mixed before the second run ends.
The publication sequence of src/unnamed/part_005 overwrites fixed keys in
place; no key is namespaced by a run identifier and no current-run pointer key
exists, so no single write acts as an atomic commit. -/
theorem C6_counterexample :
    applyRunWrites "run2" (runWriteKeys.take 5)
        (applyRunWrites "run1" runWriteKeys (fun _ => none)) "insights:summary"
      = some "run2"
    ∧ applyRunWrites "run2" (runWriteKeys.take 5)
        (applyRunWrites "run1" runWriteKeys (fun _ => none)) "metadata"
      = some "run1" := by
  decide

/-- Claim C6 (amended): publication is in-place overwrite with no commit
point — after any prefix of the write sequence of a run has been applied over
a previous cache state, a reader observes the value of the new run on exactly
the keys already written and the previous content on every other key; only a
reader that does not overlap the write sequence observes a single run
uniformly. -/
theorem C6_overwrite_in_place (prev : String → Option String) (r2 : String)
    (n : Nat) (key : String) :
    applyRunWrites r2 (runWriteKeys.take n) prev key
      = if key ∈ runWriteKeys.take n then some r2 else prev key :=
  applyRunWrites_eq r2 (runWriteKeys.take n) prev key

/-- Claim C7: the get-recipes handler clamps the page size before slicing, so
no single response page ever holds more than maxPageSize records, whatever
page_size value the caller supplies. -/
theorem C7_page_size_clamped (l : List Recipe) (page requested : Nat) :
    (getRecipesPage l page requested).length ≤ maxPageSize := by
  unfold getRecipesPage
  rw [paginatedRecipes_eq, List.length_take]
  have h2 : effectivePageSize requested ≤ maxPageSize :=
    Nat.min_le_right _ _
  omega

/-- Claim C8: a grouping-dimension filter value that matches no record in the
set yields an empty result on either dimension — a diet value matched by no
record gives an empty page and a zero total count through the embedded search,
and a cuisine value matched by no record gives an empty snapshot, whose every
page is likewise empty under the modelled backend slicing.  searchRecords and
getRecipesPage are total functions, so both outcomes are ordinary successful
results rather than errors. -/
theorem C8_missing_value_empty (l : List Recipe) (q v vc : String)
    (page pageSize : Nat) (hv : v ≠ "all")
    (h : ∀ r ∈ l, r.Diet_type ≠ v)
    (hc : ∀ r ∈ l, r.Cuisine_type ≠ vc) :
    (searchRecords l q v page pageSize).1.recipes = []
    ∧ (searchRecords l q v page pageSize).1.total_count = 0
    ∧ cuisineSnapshot vc l = []
    ∧ getRecipesPage (cuisineSnapshot vc l) page pageSize = [] := by
  have hfil : filteredRecipes l q v = [] := by
    apply List.filter_eq_nil_iff.mpr
    intro r hr hpa
    rcases (Bool.and_eq_true _ _).mp hpa with ⟨-, hd⟩
    rcases (Bool.or_eq_true _ _).mp hd with h1 | h2
    · exact hv (by simpa using h1)
    · exact h r hr (by simpa using h2)
  have hcfil : cuisineSnapshot vc l = [] := by
    apply List.filter_eq_nil_iff.mpr
    intro r hr hpa
    exact hc r hr (by simpa using hpa)
  refine ⟨?_, ?_, hcfil, ?_⟩
  · show paginatedRecipes (filteredRecipes l q v) page pageSize = []
    rw [hfil, paginatedRecipes_eq]
    simp
  · show (filteredRecipes l q v).length = 0
    rw [hfil]
    rfl
  · unfold getRecipesPage
    rw [hcfil, paginatedRecipes_eq]
    simp

/-- Claim C8 witness at a concrete input: no record has diet vegan and no
record has cuisine japanese. -/
theorem C8_missing_value_empty_witness :
    (("vegan" : String) ≠ "all"
      ∧ (∀ r ∈ ([⟨"A", "keto", "x", 1, 1, 1⟩] : List Recipe),
          r.Diet_type ≠ "vegan")
      ∧ (∀ r ∈ ([⟨"A", "keto", "x", 1, 1, 1⟩] : List Recipe),
          r.Cuisine_type ≠ "japanese"))
    ∧ (searchRecords [⟨"A", "keto", "x", 1, 1, 1⟩] "" "vegan" 1 10).1.recipes
        = []
    ∧ (searchRecords [⟨"A", "keto", "x", 1, 1, 1⟩] "" "vegan" 1
        10).1.total_count = 0
    ∧ cuisineSnapshot "japanese" [⟨"A", "keto", "x", 1, 1, 1⟩] = []
    ∧ getRecipesPage (cuisineSnapshot "japanese"
        [⟨"A", "keto", "x", 1, 1, 1⟩]) 1 10 = [] :=
  ⟨⟨by decide, by decide, by decide⟩,
   C8_missing_value_empty [⟨"A", "keto", "x", 1, 1, 1⟩] "" "vegan" "japanese"
     1 10 (by decide) (by decide) (by decide)⟩

/-- Claim C9: the query string built by fetchRecipes omits diet_type and
cuisine_type when their value is all or absent, omits the keyword when it is
empty after trimming and otherwise sends the trimmed keyword, and omits page
and page_size when they are falsy — so the sentinel filter value, a blank
keyword, or a zero page number produce the same request as leaving the
parameter unspecified. -/
theorem C9_query_params (d c kw : Option String) (pg ps : Option Nat) :
    buildQueryParams ⟨some "all", c, kw, pg, ps⟩
        = buildQueryParams ⟨none, c, kw, pg, ps⟩
    ∧ buildQueryParams ⟨d, some "all", kw, pg, ps⟩
        = buildQueryParams ⟨d, none, kw, pg, ps⟩
    ∧ (∀ k : String, jsTrim k = "" →
        buildQueryParams ⟨d, c, some k, pg, ps⟩
          = buildQueryParams ⟨d, c, none, pg, ps⟩)
    ∧ (∀ k : String, jsTrim k ≠ "" →
        keywordParam (some k) = [("keyword", jsTrim k)])
    ∧ buildQueryParams ⟨d, c, kw, some 0, ps⟩
        = buildQueryParams ⟨d, c, kw, none, ps⟩
    ∧ buildQueryParams ⟨d, c, kw, pg, some 0⟩
        = buildQueryParams ⟨d, c, kw, pg, none⟩ := by
  refine ⟨?_, ?_, ?_, ?_, ?_, ?_⟩
  · simp [buildQueryParams, dietParam]
  · simp [buildQueryParams, cuisineParam]
  · intro k hk
    have hkp : keywordParam (some k) = [] := by
      simp [keywordParam, hk]
    have hkn : keywordParam none = [] := rfl
    simp [buildQueryParams, hkp, hkn]
  · intro k hk
    have hk0 : k ≠ "" := by
      intro h0
      subst h0
      exact hk rfl
    simp [keywordParam, hk0, hk]
  · simp [buildQueryParams, pageParam]
  · simp [buildQueryParams, pageSizeParam]

/-- Claim C9 witness: a whitespace-only keyword is omitted from the query. -/
theorem C9_query_params_witness :
    jsTrim "   " = ""
    ∧ buildQueryParams ⟨some "keto", none, some "   ", some 2, none⟩
        = buildQueryParams ⟨some "keto", none, none, some 2, none⟩ :=
  ⟨by decide,
   (C9_query_params (some "keto") none none (some 2) none).2.2.1 "   "
     (by decide)⟩

/-- Claim C10: starting from page one, the dashboard pagination operations
preserve the invariant 1 ≤ currentPage ≤ max(totalPages, 1): previous and
next are guarded by the current page, page buttons are only emitted for the
pages one through totalPages, and every search or filter change resets the
current page to one. -/
theorem C10_pager_invariant (tp : Nat) :
    pagerInvariant ⟨1, tp⟩
    ∧ ∀ st e, pagerInvariant st → eventAllowed st e →
        pagerInvariant (stepPager st e) := by
  constructor
  · unfold pagerInvariant
    simp
  · intro st e hinv hallow
    obtain ⟨h1, h2⟩ := hinv
    cases e with
    | previous =>
      by_cases hc : st.currentPage > 1
      · simp only [stepPager, goToPrevious, if_pos hc, pagerInvariant]
        omega
      · simp only [stepPager, goToPrevious, if_neg hc, pagerInvariant]
        exact ⟨h1, h2⟩
    | next =>
      by_cases hc : st.currentPage < st.totalPages
      · simp only [stepPager, goToNext, if_pos hc, pagerInvariant]
        omega
      · simp only [stepPager, goToNext, if_neg hc, pagerInvariant]
        exact ⟨h1, h2⟩
    | goto p =>
      simp only [eventAllowed] at hallow
      simp only [stepPager, goToPage, pagerInvariant]
      omega
    | filterChange n =>
      simp only [stepPager, resetOnFilterChange, pagerInvariant]
      omega

/-- Claim C10 witness: a concrete step of the pager from its initial state. -/
theorem C10_pager_invariant_witness :
    pagerInvariant ⟨1, 3⟩
    ∧ pagerInvariant (stepPager ⟨1, 3⟩ PageEvent.next) :=
  ⟨(C10_pager_invariant 3).1,
   (C10_pager_invariant 3).2 ⟨1, 3⟩ PageEvent.next (by decide) (by decide)⟩
